import Mathlib

/-!
Shallow embedding of the `ican2002/tetris` engine (Go) and proofs about it.

Sources embedded:
  * `pkg/piece` — piece kinds, base shapes, rotation, wall kicks, kinematics.
  * `pkg/board` — 10×20 cell grid, collision, locking, line clearing.
  * `pkg/game`  — the engine: operations, scoring, leveling, state machine.
  * `pkg/protocol` / `pkg/server` — control-type validation and the
    per-client message dispatch.
  * `pkg/wsclient` — the reference client's receive handling.

Go slices become `List`, machine `int` becomes `Int` (no overflow is
reachable at these magnitudes), mutation becomes explicit state passing,
and the two source loops without a structural decrease (`Piece.HardDrop`,
`Board.ClearLines`) take a fuel argument large enough that the proofs
below show it is never exhausted on the inputs of interest.
-/

namespace Tetris

/-- The seven Tetris piece kinds (Go: `piece.Type`, `TypeI` … `TypeL`). -/
inductive PieceType
  | I | O | T | S | Z | J | L
deriving DecidableEq, Repr

/-- A shape is a 0/1 grid, row-major (Go: `piece.Shape = [][]int`). -/
abbrev Shape := List (List Nat)

/-- Base shapes of the 7 pieces in rotation 0 (Go: `piece.shapes`). -/
def shapes : PieceType → Shape
  | .I => [[1, 1, 1, 1]]
  | .O => [[1, 1], [1, 1]]
  | .T => [[0, 1, 0], [1, 1, 1]]
  | .S => [[0, 1, 1], [1, 1, 0]]
  | .Z => [[1, 1, 0], [0, 1, 1]]
  | .J => [[1, 0, 0], [1, 1, 1]]
  | .L => [[0, 0, 1], [1, 1, 1]]

/-- Colors of the 7 pieces (Go: `piece.colors`). -/
def colors : PieceType → String
  | .I => "#00FFFF"
  | .O => "#FFFF00"
  | .T => "#800080"
  | .S => "#00FF00"
  | .Z => "#FF0000"
  | .J => "#0000FF"
  | .L => "#FFA500"

/-- Height of a shape (Go: `Shape.Height`, `len(s)`). -/
def Shape.height (s : Shape) : Nat := s.length

/-- Width of a shape (Go: `Shape.Width`, `len(s[0])`, `0` when empty). -/
def Shape.width (s : Shape) : Nat := (s.headD []).length

/-- Entry of a shape at row `r`, column `c` (Go: `shape[r][c]`). -/
def Shape.cell (s : Shape) (r c : Nat) : Nat := (s.getD r []).getD c 0

/-- One 90° clockwise rotation (Go: `rotate90`):
`rotated[c][rows-1-r] = shape[r][c]`, i.e. entry `(i, j)` of the result is
entry `(rows-1-j, i)` of the source. -/
def rotate90 (s : Shape) : Shape :=
  (List.range s.width).map fun i =>
    (List.range s.height).map fun j => s.cell (s.height - 1 - j) i

/-- Iterated clockwise rotation (Go: `rotate`). -/
def rotate (s : Shape) : Nat → Shape
  | 0 => s
  | n + 1 => rotate90 (rotate s n)

/-- A piece: kind, color, position of the shape's top-left corner, and
rotation count (Go: `piece.Piece`). -/
structure Piece where
  type : PieceType
  color : String
  x : Int
  y : Int
  rotation : Nat
deriving DecidableEq, Repr

/-- A fresh piece of kind `t` (Go: `piece.New`): spawn at `(3, 0)`,
rotation 0. -/
def Piece.New (t : PieceType) : Piece :=
  { type := t, color := colors t, x := 3, y := 0, rotation := 0 }

/-- The shape of a piece in its current rotation (Go: `Piece.GetShape`). -/
def Piece.GetShape (p : Piece) : Shape := rotate (shapes p.type) p.rotation

/-- Wall-kick offsets `(dx, dy)` for a kind (Go: `getWallKicks`; the
`rotation` argument is unused in the source as well). -/
def getWallKicks (t : PieceType) (_rotation : Nat) : List (Int × Int) :=
  if t = .I then
    [(-1, 0), (1, 0), (-2, 0), (2, 0), (-1, -1), (1, -1), (-1, 1), (1, 1)]
  else
    [(-1, 0), (1, 0), (0, -1)]

/-- The kick loop inside Go's `Piece.Rotate`: try each offset in order,
adopt the first one the collision predicate reports clear. -/
def Piece.tryKicks (p : Piece) (checkCollision : Int → Int → Shape → Bool)
    (newRotation : Nat) (newShape : Shape) : List (Int × Int) → Piece × Bool
  | [] => (p, false)
  | k :: rest =>
    let newX := p.x + k.1
    let newY := p.y + k.2
    if !(checkCollision newX newY newShape) then
      ({ p with x := newX, y := newY, rotation := newRotation }, true)
    else
      p.tryKicks checkCollision newRotation newShape rest

/-- Rotation attempt (Go: `Piece.Rotate`): O is a no-op success; otherwise
try the rotated shape in place, then the wall kicks. -/
def Piece.Rotate (p : Piece) (checkCollision : Int → Int → Shape → Bool) :
    Piece × Bool :=
  if p.type = .O then (p, true)
  else
    let newRotation := (p.rotation + 1) % 4
    let newShape := rotate (shapes p.type) newRotation
    if !(checkCollision p.x p.y newShape) then
      ({ p with rotation := newRotation }, true)
    else
      p.tryKicks checkCollision newRotation newShape
        (getWallKicks p.type newRotation)

/-- One-cell left move (Go: `Piece.MoveLeft`). -/
def Piece.MoveLeft (p : Piece) (checkCollision : Int → Int → Shape → Bool) :
    Piece × Bool :=
  let shape := p.GetShape
  if !(checkCollision (p.x - 1) p.y shape) then
    ({ p with x := p.x - 1 }, true)
  else (p, false)

/-- One-cell right move (Go: `Piece.MoveRight`). -/
def Piece.MoveRight (p : Piece) (checkCollision : Int → Int → Shape → Bool) :
    Piece × Bool :=
  let shape := p.GetShape
  if !(checkCollision (p.x + 1) p.y shape) then
    ({ p with x := p.x + 1 }, true)
  else (p, false)

/-- One-cell down move (Go: `Piece.MoveDown`). -/
def Piece.MoveDown (p : Piece) (checkCollision : Int → Int → Shape → Bool) :
    Piece × Bool :=
  let shape := p.GetShape
  if !(checkCollision p.x (p.y + 1) shape) then
    ({ p with y := p.y + 1 }, true)
  else (p, false)

/-- Descent loop of Go's `Piece.HardDrop`; returns the final `y` and the
distance fallen.  The Go loop is unbounded; `fuel` only caps the iteration
count and 32 exceeds the 20-row board, so it is never reached in play. -/
def hardDropLoop (checkCollision : Int → Int → Shape → Bool) (shape : Shape)
    (x : Int) : Nat → Int → Nat → Int × Nat
  | 0, y, d => (y, d)
  | fuel + 1, y, d =>
    if !(checkCollision x (y + 1) shape) then
      hardDropLoop checkCollision shape x fuel (y + 1) (d + 1)
    else (y, d)

/-- Iteration bound for the hard-drop loop; larger than the board height. -/
def hardDropFuel : Nat := 32

/-- Hard drop (Go: `Piece.HardDrop`): descend while the cell below is
clear; return the piece at its final position and the distance fallen. -/
def Piece.HardDrop (p : Piece) (checkCollision : Int → Int → Shape → Bool) :
    Piece × Nat :=
  let shape := p.GetShape
  let yd := hardDropLoop checkCollision shape p.x hardDropFuel p.y 0
  ({ p with y := yd.1 }, yd.2)

/-! ## Board (`pkg/board`) -/

/-- A board cell (Go: `board.Cell`): a color string plus an emptiness
flag. -/
structure Cell where
  color : String
  empty : Bool
deriving DecidableEq, Repr

/-- The empty cell placed by `board.New` and `removeLine`. -/
def emptyCell : Cell := { color := "", empty := true }

/-- An empty board row of `Width` cells. -/
def emptyRow : List Cell := List.replicate 10 emptyCell

/-- The board: 20 rows of 10 cells, row 0 on top (Go: `board.Board`,
`cells [Height][Width]Cell` with `Width = 10`, `Height = 20`). -/
abbrev Board := List (List Cell)

/-- A fresh all-empty board (Go: `board.New`). -/
def Board.New : Board := List.replicate 20 emptyRow

/-- Bounds check (Go: `Board.isValidPosition`):
`x ∈ [0, 10)` and `y ∈ [0, 20)`. -/
def isValidPosition (x y : Int) : Bool :=
  0 ≤ x && x < 10 && 0 ≤ y && y < 20

/-- Raw cell lookup `cells[y][x]`; callers guard with
`isValidPosition` exactly where the Go source does. -/
def Board.cellAt (b : Board) (x y : Int) : Cell :=
  (b.getD y.toNat []).getD x.toNat emptyCell

/-- Emptiness query (Go: `Board.IsEmpty`): out-of-bounds counts as
non-empty. -/
def Board.IsEmpty (b : Board) (x y : Int) : Bool :=
  if isValidPosition x y then (b.cellAt x y).empty else false

/-- Occupancy query (Go: `Board.IsOccupied`). -/
def Board.IsOccupied (b : Board) (x y : Int) : Bool :=
  !(b.IsEmpty x y)

/-- Collision test (Go: `Board.CheckCollision`): true iff some filled
cell of `shape` placed at `(x, y)` is out of bounds or overlaps an
occupied cell. -/
def Board.CheckCollision (b : Board) (x y : Int) (shape : Shape) : Bool :=
  (List.range shape.height).any fun r =>
    (List.range shape.width).any fun c =>
      shape.cell r c == 1 &&
        (!(isValidPosition (x + (c : Int)) (y + (r : Int))) ||
          b.IsOccupied (x + (c : Int)) (y + (r : Int)))

/-- Cell write (Go: `Board.SetCell`): `true` on success, `false` stands
for the `OutOfBoundsError` return, in which case the board is
untouched. -/
def Board.SetCell (b : Board) (x y : Int) (color : String) : Board × Bool :=
  if isValidPosition x y then
    (b.set y.toNat ((b.getD y.toNat []).set x.toNat
        { color := color, empty := false }), true)
  else (b, false)

/-- The filled cells of a shape as `(r, c)` pairs in the row-major order
of Go's nested `for r` / `for c` loops with the `shape[r][c] == 1`
test. -/
def Shape.cellsList (s : Shape) : List (Nat × Nat) :=
  (List.range s.height).flatMap fun r =>
    (List.range s.width).filterMap fun c =>
      if s.cell r c = 1 then some (r, c) else none

/-- Body of Go's `Board.LockPiece` loops: write the piece color at each
filled cell, stopping at the first failed `SetCell` (Go returns the
error immediately, keeping the earlier writes). -/
def Board.lockCells (b : Board) (color : String) (px py : Int) :
    List (Nat × Nat) → Board × Bool
  | [] => (b, true)
  | rc :: rest =>
    let res := b.SetCell (px + (rc.2 : Int)) (py + (rc.1 : Int)) color
    if res.2 then res.1.lockCells color px py rest
    else (res.1, false)

/-- Lock a piece onto the board (Go: `Board.LockPiece`); the boolean is
`true` when no write went out of bounds (Go: `nil` error). -/
def Board.LockPiece (b : Board) (p : Piece) : Board × Bool :=
  b.lockCells p.color p.x p.y p.GetShape.cellsList

/-- Full-row test (Go: `Board.isLineComplete`): every `x ∈ [0, 10)` is
non-empty at row `y`. -/
def Board.isLineComplete (b : Board) (y : Int) : Bool :=
  (List.range 10).all fun x => !(b.IsEmpty (x : Int) y)

/-- Row removal (Go: `Board.removeLine`): rows `0 … y−1` shift down one
slot and row 0 becomes empty, i.e. as a list the result is an empty row
followed by rows `0 … y−1` and then rows `y+1 …` unchanged. -/
def Board.removeLine (b : Board) (y : Int) : Board :=
  emptyRow :: (b.take y.toNat ++ b.drop (y.toNat + 1))

/-- The bottom-up scan of Go's `Board.ClearLines`: at a complete row,
remove it and re-check the same index (Go does `y++` to cancel the loop
decrement); otherwise move up.  `fuel` caps the iterations; 64 exceeds
the at most 20 decrements plus 20 removals possible on a 20-row board,
as proved below. -/
def Board.clearLinesLoop (b : Board) (y : Int) (count : Nat) :
    Nat → Board × Nat
  | 0 => (b, count)
  | fuel + 1 =>
    if y < 0 then (b, count)
    else if b.isLineComplete y then
      (b.removeLine y).clearLinesLoop y (count + 1) fuel
    else
      b.clearLinesLoop (y - 1) count fuel

/-- Clear all complete rows, bottom-up (Go: `Board.ClearLines`); returns
the new board and the number of rows removed. -/
def Board.ClearLines (b : Board) : Board × Nat :=
  b.clearLinesLoop 19 0 64

/-- A full row in the spec's sense: every cell occupied.  For rows of
width 10 this agrees with `Board.isLineComplete` (proved below). -/
def rowFull (row : List Cell) : Bool := row.all fun c => !c.empty

/-- Well-formedness the Go array type enforces: 20 rows of 10 cells. -/
def Board.WF (b : Board) : Prop :=
  b.length = 20 ∧ ∀ row ∈ b, row.length = 10

instance (b : Board) : Decidable b.WF := by
  unfold Board.WF; infer_instance

/-! ## Engine (`pkg/game`) -/

/-- The engine state machine (Go: `game.State`). -/
inductive GState
  | Playing | Paused | GameOver
deriving DecidableEq, BEq, Repr

/-- The game engine (Go: `game.Game`).  The 7-bag generator's source file
is not among the provided sources; modelled from the spec (§4.3) as an
abstract stream `gen` of kinds with cursor `gi`, each draw spawning a
fresh piece of the next kind.  `dropInterval` and the clock are in
milliseconds. -/
structure Game where
  board : Board
  gen : Nat → PieceType
  gi : Nat
  current : Piece
  next : Option Piece
  state : GState
  score : Nat
  level : Nat
  lines : Nat
  dropInterval : Nat
  lastDrop : Nat

/-- Draw from the generator (Go: `generator.Next()`), yielding a freshly
spawned piece of the stream's next kind. -/
def Game.genNext (g : Game) : Piece × Game :=
  (Piece.New (g.gen g.gi), { g with gi := g.gi + 1 })

/-- Drop interval for a level (Go: `calculateDropInterval`):
`max(100ms, 1000ms − (level−1)·100ms)`, computed over `Int` as in Go and
clamped below at 100. -/
def calculateDropInterval (level : Nat) : Nat :=
  let ms : Int := 1000 - ((level : Int) - 1) * 100
  (if ms < 100 then (100 : Int) else ms).toNat

/-- Promote the pending piece (or a generator draw) to `current`;
transition to GameOver when it already collides (Go:
`Game.spawnPiece`). -/
def Game.spawnPiece (g : Game) : Game :=
  let cg : Piece × Game :=
    match g.next with
    | some n => (n, g)
    | none => g.genNext
  let g2 := { cg.2 with current := cg.1 }
  if g2.board.CheckCollision cg.1.x cg.1.y cg.1.GetShape then
    { g2 with state := .GameOver }
  else g2

/-- Draw the upcoming piece (Go: `Game.prepareNext`). -/
def Game.prepareNext (g : Game) : Game :=
  let ng := g.genNext
  { ng.2 with next := some ng.1 }

/-- A fresh game over a generator stream (Go: `game.New`): empty board,
score 0, level 1, interval for level 1, then spawn and prepare.  In Go
`current` is nil until `spawnPiece` runs; here the placeholder value is
immediately overwritten by `spawnPiece` (since `next` is `none`). -/
def Game.New (gen : Nat → PieceType) : Game :=
  let g0 : Game :=
    { board := Board.New, gen := gen, gi := 0,
      current := Piece.New (gen 0), next := none, state := .Playing,
      score := 0, level := 1, lines := 0,
      dropInterval := calculateDropInterval 1, lastDrop := 0 }
  g0.spawnPiece.prepareNext

/-- Per-clear score table (Go: the `scoreMultiplier` map literal; a Go
map lookup of a missing key yields the zero value 0). -/
def scoreMultiplier : Nat → Nat
  | 1 => 100
  | 2 => 300
  | 3 => 500
  | 4 => 800
  | _ => 0

/-- Scoring and leveling after a lock (Go: `Game.updateScore`): nothing
on zero clears; otherwise add table points × level, add the cleared
lines, and when `⌊lines/10⌋ + 1` exceeds the level adopt it and
recompute the interval. -/
def Game.updateScore (g : Game) (linesCleared : Nat) : Game :=
  if linesCleared = 0 then g
  else
    let g1 := { g with
      score := g.score + scoreMultiplier linesCleared * g.level,
      lines := g.lines + linesCleared }
    let newLevel := g1.lines / 10 + 1
    if newLevel > g1.level then
      { g1 with
        level := newLevel,
        dropInterval := calculateDropInterval newLevel }
    else g1

/-- Lock, clear, score, respawn (Go: `Game.lockAndSpawnLocked`); the Go
code discards `LockPiece`'s error. -/
def Game.lockAndSpawnLocked (g : Game) : Game :=
  let b1 := (g.board.LockPiece g.current).1
  let bc := b1.ClearLines
  ((({ g with board := bc.1 }).updateScore bc.2).spawnPiece).prepareNext

/-- Move the current piece left (Go: `Game.MoveLeft`); a no-op returning
`false` unless Playing. -/
def Game.MoveLeft (g : Game) : Game × Bool :=
  if g.state ≠ .Playing then (g, false)
  else
    let pr := g.current.MoveLeft fun x y s => g.board.CheckCollision x y s
    ({ g with current := pr.1 }, pr.2)

/-- Move the current piece right (Go: `Game.MoveRight`). -/
def Game.MoveRight (g : Game) : Game × Bool :=
  if g.state ≠ .Playing then (g, false)
  else
    let pr := g.current.MoveRight fun x y s => g.board.CheckCollision x y s
    ({ g with current := pr.1 }, pr.2)

/-- Soft drop (Go: `Game.MoveDown`): on a failed move the piece locks and
a new one spawns. -/
def Game.MoveDown (g : Game) : Game × Bool :=
  if g.state ≠ .Playing then (g, false)
  else
    let pr := g.current.MoveDown fun x y s => g.board.CheckCollision x y s
    let g1 := { g with current := pr.1 }
    if pr.2 then (g1, true) else (g1.lockAndSpawnLocked, false)

/-- Hard drop (Go: `Game.HardDrop`): returns 0 unless Playing; otherwise
drop, add `distance × level` to the score, lock-and-spawn, and return the
distance. -/
def Game.HardDrop (g : Game) : Game × Nat :=
  if g.state ≠ .Playing then (g, 0)
  else
    let pd := g.current.HardDrop fun x y s => g.board.CheckCollision x y s
    let g1 := { g with current := pd.1, score := g.score + pd.2 * g.level }
    (g1.lockAndSpawnLocked, pd.2)

/-- Rotate the current piece (Go: `Game.Rotate`). -/
def Game.RotateCur (g : Game) : Game × Bool :=
  if g.state ≠ .Playing then (g, false)
  else
    let pr := g.current.Rotate fun x y s => g.board.CheckCollision x y s
    ({ g with current := pr.1 }, pr.2)

/-- Pause (Go: `Game.Pause`): only Playing → Paused. -/
def Game.Pause (g : Game) : Game :=
  if g.state = .Playing then { g with state := .Paused } else g

/-- Resume (Go: `Game.Resume`): only Paused → Playing, resetting the drop
clock to `now`. -/
def Game.Resume (g : Game) (now : Nat) : Game :=
  if g.state = .Paused then { g with state := .Playing, lastDrop := now }
  else g

/-- The periodic tick (Go: `Game.Update`): when Playing and the interval
has elapsed, reset the clock and take one gravity step (a `MoveDown`
that locks on failure); returns whether a step was taken. -/
def Game.Update (g : Game) (now : Nat) : Game × Bool :=
  if g.state ≠ .Playing then (g, false)
  else if g.dropInterval ≤ now - g.lastDrop then
    let g0 := { g with lastDrop := now }
    let pr := g0.current.MoveDown fun x y s => g0.board.CheckCollision x y s
    let g1 := { g0 with current := pr.1 }
    (if pr.2 then g1 else g1.lockAndSpawnLocked, true)
  else (g, false)

/-- Go: `Game.IsGameOver`. -/
def Game.IsGameOver (g : Game) : Bool := g.state == .GameOver

/-- The engine operations a session can drive, with explicit clock values
for the time-dependent ones. -/
inductive Op
  | moveLeft | moveRight | moveDown | rotateCur | hardDrop
  | update (now : Nat) | pause | resume (now : Nat)

/-- Apply one operation, keeping only the resulting engine. -/
def Game.applyOp (g : Game) : Op → Game
  | .moveLeft => g.MoveLeft.1
  | .moveRight => g.MoveRight.1
  | .moveDown => g.MoveDown.1
  | .rotateCur => g.RotateCur.1
  | .hardDrop => g.HardDrop.1
  | .update now => (g.Update now).1
  | .pause => g.Pause
  | .resume now => g.Resume now

/-- Apply a sequence of operations in order. -/
def Game.applyOps (g : Game) : List Op → Game
  | [] => g
  | op :: rest => (g.applyOp op).applyOps rest

/-! ## Protocol validation and server dispatch
(`pkg/protocol/message.go`, `pkg/server/server.go`) -/

/-- Go: `protocol.IsValidControlType` — the switch accepts exactly these
ten type strings (note that `toggle_pause` is among them). -/
def IsValidControlType (t : String) : Bool :=
  t == "move_left" || t == "move_right" || t == "move_down" ||
  t == "rotate" || t == "hard_drop" || t == "toggle_pause" ||
  t == "pause" || t == "resume" || t == "restart" || t == "pong"

/-- An outbound frame of `Client.handleMessage` (`sendError`,
`sendState`, `sendGameOver`); the handler never closes the
connection. -/
inductive ServerFrame
  | stateFrame
  | errorFrame (msg : String)
  | gameOverFrame
deriving DecidableEq, Repr

/-- The engine mutation selected by the `switch` in Go's
`Client.handleMessage`; a type string with no matching `case`
(in particular `toggle_pause`) leaves the engine untouched. -/
def dispatchControl (g : Game) (now : Nat) (freshGen : Nat → PieceType)
    (t : String) : Game :=
  if t == "move_left" then g.MoveLeft.1
  else if t == "move_right" then g.MoveRight.1
  else if t == "move_down" then g.MoveDown.1
  else if t == "rotate" then g.RotateCur.1
  else if t == "hard_drop" then g.HardDrop.1
  else if t == "pause" then g.Pause
  else if t == "resume" then g.Resume now
  else if t == "restart" then Game.New freshGen
  else g

/-- Go: `Client.handleMessage`.  `parsed` is the result of
`protocol.ParseControlMessage` (`none` = malformed JSON or missing
type).  Returns the engine afterwards and the frames sent, in order:
parse failure → error frame; invalid type → error frame; game over and
type ∉ {pong, restart} → error frame; `pong` only resets the heartbeat
timer and sends nothing; every other accepted type dispatches, then a
state frame is sent, plus a game-over frame when the engine has just
ended. -/
def handleMessage (g : Game) (now : Nat) (freshGen : Nat → PieceType)
    (parsed : Option String) : Game × List ServerFrame :=
  match parsed with
  | none => (g, [.errorFrame "Invalid message format"])
  | some t =>
    if !(IsValidControlType t) then
      (g, [.errorFrame ("Unknown message type: " ++ t)])
    else if g.IsGameOver && t != "pong" && t != "restart" then
      (g, [.errorFrame "Game is over"])
    else if t == "pong" then (g, [])
    else
      let g2 := dispatchControl g now freshGen t
      (g2, if g2.IsGameOver then [.stateFrame, .gameOverFrame]
           else [.stateFrame])

/-! ## Reference client receive handling (`pkg/wsclient/client.go`) -/

/-- What the reference client does with one received frame: the frames it
writes back to the server and the frames it hands to the state-change
callback. -/
structure ClientStep where
  sent : List String
  forwarded : List String
deriving DecidableEq, Repr

/-- Go: the per-message body of `Client.listen` in
`pkg/wsclient/client.go` (lines 62–78).  It performs no decoding and no
ping handling: every received frame goes to `onStateChange` and nothing
is written back. -/
def listenHandleMessage (message : String) : ClientStep :=
  { sent := [], forwarded := [message] }

/-- The wire text of a server `ping` frame (§4.5). -/
def pingFrameText : String := "\x7b\"type\":\"ping\"\x7d"

/-! ## Spec-side models and fixtures -/

/-- Modelled from the spec (§4.1.1): the documented wall-kick candidate
lists, written from the spec's words for comparison with
`getWallKicks`. -/
def specKicks (t : PieceType) : List (Int × Int) :=
  if t = .I then
    [(-1, 0), (1, 0), (-2, 0), (2, 0), (-1, -1), (1, -1), (-1, 1), (1, 1)]
  else
    [(-1, 0), (1, 0), (0, -1)]

/-- Modelled from the spec (§4.1 `Rotate`): O succeeds unchanged;
otherwise the candidates — the unchanged position first, then the §4.1.1
kicks in order — are scanned and the first offset the predicate reports
clear is adopted with rotation `(r+1) mod 4`; if none clears the piece is
unchanged and the result is failure. -/
def RotateSpec (p : Piece) (checkCollision : Int → Int → Shape → Bool) :
    Piece × Bool :=
  if p.type = .O then (p, true)
  else
    let r2 := (p.rotation + 1) % 4
    let shape2 := rotate (shapes p.type) r2
    match ((0, 0) :: specKicks p.type).find?
        (fun k => !(checkCollision (p.x + k.1) (p.y + k.2) shape2)) with
    | some k => ({ p with x := p.x + k.1, y := p.y + k.2, rotation := r2 }, true)
    | none => (p, false)

/-- Whether a frame is an error frame. -/
def ServerFrame.isError : ServerFrame → Bool
  | .errorFrame _ => true
  | _ => false

/-- Whether the shape of `p`, placed at `(p.x, p.y)`, has a filled cell
on the board coordinate `(x, y)`. -/
def Piece.coversCell (p : Piece) (x y : Int) : Bool :=
  p.GetShape.cellsList.any fun rc =>
    (p.x + (rc.2 : Int) == x) && (p.y + (rc.1 : Int) == y)

/-- The engine safety invariant behind claim C3: while the game is not
over, the active piece does not collide with the board. -/
def Game.PieceInv (g : Game) : Prop :=
  g.state ≠ .GameOver →
    g.board.CheckCollision g.current.x g.current.y g.current.GetShape = false

/-- The bookkeeping invariant behind claim C4. -/
def Game.LevelInv (g : Game) : Prop :=
  g.level = g.lines / 10 + 1 ∧
  g.dropInterval = calculateDropInterval g.level

/-- A constant generator stream, used for concrete fixtures. -/
def genI : Nat → PieceType := fun _ => .I

/-- A fresh game over the constant-I stream. -/
def g0 : Game := Game.New genI

/-- An empty-board game at level 3 with a freshly spawned I-piece: the
configuration of spec scenario S6. -/
def gameI3 : Game :=
  { board := Board.New, gen := genI, gi := 0,
    current := Piece.New .I, next := some (Piece.New .O), state := .Playing,
    score := 0, level := 3, lines := 20, dropInterval := 800, lastDrop := 0 }

/-- A game whose state is GameOver, for the not-Playing fixtures. -/
def gameOverG : Game := { g0 with state := .GameOver }

/-- A 20×10 board whose rows 17 and 19 are fully occupied and whose
row 18 has one hole. -/
def wBoard : Board :=
  let full : List Cell := List.replicate 10 { color := "#00FFFF", empty := false }
  let holed : List Cell :=
    { color := "", empty := true } :: List.replicate 9 { color := "#00FFFF", empty := false }
  List.replicate 17 emptyRow ++ [full, holed, full]

/-- An O-piece placed at the bottom-left region of the board, for the
locking fixture. -/
def pO : Piece := { Piece.New .O with y := 18 }

/-! ## Rotation algebra -/

theorem rotate_add (s : Shape) (a b : Nat) :
    rotate s (a + b) = rotate (rotate s a) b := by
  induction b with
  | zero => rfl
  | succ n ih => rw [Nat.add_succ]; simp [rotate, ih]

theorem rotate_shapes_four (t : PieceType) :
    rotate (shapes t) 4 = shapes t := by
  cases t <;> rfl

theorem rotate_shapes_add_mul_four (t : PieceType) (m q : Nat) :
    rotate (shapes t) (m + 4 * q) = rotate (shapes t) m := by
  induction q with
  | zero => rfl
  | succ n ih =>
    have h : m + 4 * (n + 1) = 4 + (m + 4 * n) := by ring
    rw [h, rotate_add, rotate_shapes_four, ih]

/-- **C9.** The effective shape of a piece depends on its rotation count
only modulo 4: iterating the 90°-clockwise transform `r` times on a base
shape equals iterating it `r % 4` times, and `GetShape` is invariant
under reducing the rotation field modulo 4. -/
theorem shape_rotation_mod_four :
    (∀ (t : PieceType) (r : Nat),
      rotate (shapes t) r = rotate (shapes t) (r % 4)) ∧
    (∀ p : Piece,
      p.GetShape = Piece.GetShape { p with rotation := p.rotation % 4 }) := by
  have key : ∀ (t : PieceType) (r : Nat),
      rotate (shapes t) r = rotate (shapes t) (r % 4) := by
    intro t r
    conv_lhs => rw [← Nat.mod_add_div r 4]
    exact rotate_shapes_add_mul_four t (r % 4) (r / 4)
  exact ⟨key, fun p => key p.type p.rotation⟩

/-! ## Rotation candidate order (C6) -/

theorem tryKicks_eq_find (p : Piece) (cc : Int → Int → Shape → Bool)
    (r2 : Nat) (s2 : Shape) (ks : List (Int × Int)) :
    p.tryKicks cc r2 s2 ks =
      match ks.find? (fun k => !(cc (p.x + k.1) (p.y + k.2) s2)) with
      | some k => ({ p with x := p.x + k.1, y := p.y + k.2, rotation := r2 }, true)
      | none => (p, false) := by
  induction ks with
  | nil => rfl
  | cons k rest ih =>
    rw [Piece.tryKicks, List.find?]
    cases h : cc (p.x + k.1) (p.y + k.2) s2 with
    | false => simp [h]
    | true => simp [h, ih]

/-- **C6.** `Piece.Rotate` follows the documented candidate order: O is a
no-op success; otherwise the tentative rotation `(r+1) mod 4` is tried at
the unchanged position first and then at the documented wall-kick
offsets in order, adopting the first clear candidate; if every candidate
collides the piece is returned unchanged with `false`.  `RotateSpec` is
that description transcribed from the spec's words. -/
theorem Rotate_eq_RotateSpec (p : Piece) (cc : Int → Int → Shape → Bool) :
    p.Rotate cc = RotateSpec p cc := by
  unfold Piece.Rotate RotateSpec
  by_cases hO : p.type = .O
  · simp [hO]
  · simp only [hO, if_false, List.find?]
    cases h : cc p.x p.y (rotate (shapes p.type) ((p.rotation + 1) % 4)) with
    | false => simp [h]
    | true =>
      simp only [h, Bool.not_true, if_false]
      rw [tryKicks_eq_find]
      have hk : getWallKicks p.type ((p.rotation + 1) % 4) = specKicks p.type := by
        unfold getWallKicks specKicks; rfl
      rw [hk]
      simp [h]

/-! ## Reference client receive handling (C7) -/

/-- **C7 (code_bug evidence).** In `pkg/wsclient/client.go` the receive
loop performs no ping detection: every received frame — in particular a
`ping` frame — is handed to the state-change callback, and nothing is
ever written back, so no automatic `pong` reply exists.  This contradicts
the claim (and the comment in `cmd/tetris/main.go` that pings are handled
automatically by the client). -/
theorem wsclient_forwards_every_frame :
    (∀ msg : String, listenHandleMessage msg =
      { sent := [], forwarded := [msg] }) ∧
    listenHandleMessage pingFrameText =
      { sent := [], forwarded := [pingFrameText] } :=
  ⟨fun _ => rfl, rfl⟩

/-! ## Operations are no-ops outside Playing (C8) -/

/-- **C8.** When the engine state is not Playing, `MoveLeft`,
`MoveRight`, `MoveDown` and `RotateCur` return `false`, `HardDrop`
returns 0 and `Update` returns `false`, and none of them changes any
engine field (the whole `Game` value is returned unchanged). -/
theorem ops_noop_unless_playing (g : Game) (now : Nat)
    (h : g.state ≠ .Playing) :
    g.MoveLeft = (g, false) ∧ g.MoveRight = (g, false) ∧
    g.MoveDown = (g, false) ∧ g.RotateCur = (g, false) ∧
    g.HardDrop = (g, 0) ∧ g.Update now = (g, false) := by
  unfold Game.MoveLeft Game.MoveRight Game.MoveDown Game.RotateCur
    Game.HardDrop Game.Update
  simp [h]

/-- Witness for C8: a concrete game in state GameOver; `MoveLeft` on it
returns `false` and leaves the board (indeed the whole game)
unchanged. -/
theorem ops_noop_unless_playing_w :
    gameOverG.state = .GameOver ∧
    gameOverG.MoveLeft = (gameOverG, false) ∧
    gameOverG.MoveLeft.1.board = gameOverG.board := by
  have h := (ops_noop_unless_playing gameOverG 0 (by decide)).1
  exact ⟨rfl, h, by rw [h]⟩

/-! ## Server dispatch of control frames (C2) -/

/-- **C2 (counterexample).** `toggle_pause` is accepted by
`IsValidControlType`, so the server does not reply with an error frame:
on a fresh game the reply is a single `state` frame and the engine is
unchanged. -/
theorem toggle_pause_not_rejected :
    IsValidControlType "toggle_pause" = true ∧
    (handleMessage g0 0 genI (some "toggle_pause")).2 =
      [ServerFrame.stateFrame] ∧
    ((handleMessage g0 0 genI (some "toggle_pause")).2.all
      fun f => !f.isError) = true ∧
    (handleMessage g0 0 genI (some "toggle_pause")).1 = g0 :=
  ⟨rfl, rfl, rfl, rfl⟩

/-- **C2 (amended).** For every control frame whose `type` is not among
the ten strings accepted by `IsValidControlType` (the nine documented
ones plus `toggle_pause`), and for unparsable/missing-type frames, the
server replies with a single `error` frame and applies no mutation to
the engine; `toggle_pause` itself passes validation, matches no dispatch
case, and (when the game is not over) yields an unchanged engine and a
`state` frame instead of an error. -/
theorem unknown_control_rejected (g : Game) (now : Nat)
    (fg : Nat → PieceType) (t : String)
    (hv : IsValidControlType t = false) :
    handleMessage g now fg (some t) =
      (g, [ServerFrame.errorFrame ("Unknown message type: " ++ t)]) ∧
    handleMessage g now fg none =
      (g, [ServerFrame.errorFrame "Invalid message format"]) ∧
    (g.IsGameOver = false →
      handleMessage g now fg (some "toggle_pause") =
        (g, [ServerFrame.stateFrame])) := by
  refine ⟨?_, rfl, ?_⟩
  · simp [handleMessage, hv]
  · intro hgo
    simp [handleMessage, dispatchControl, hgo, IsValidControlType]

/-- Witness for C2: the unknown type `"boop"` is rejected with an error
frame and no mutation, while `toggle_pause` on a fresh (not-over) game
produces a state frame. -/
theorem unknown_control_rejected_w :
    IsValidControlType "boop" = false ∧
    handleMessage g0 0 genI (some "boop") =
      (g0, [ServerFrame.errorFrame ("Unknown message type: " ++ "boop")]) ∧
    g0.IsGameOver = false ∧
    handleMessage g0 0 genI (some "toggle_pause") =
      (g0, [ServerFrame.stateFrame]) := by
  have h := unknown_control_rejected g0 0 genI "boop" (by decide)
  exact ⟨by decide, h.1, by decide, h.2.2 (by decide)⟩

/-! ## Hard-drop scoring (C1) -/

theorem score_spawnPiece (g : Game) : g.spawnPiece.score = g.score := by
  unfold Game.spawnPiece Game.genNext
  cases g.next <;> dsimp <;> split <;> rfl

theorem level_spawnPiece (g : Game) : g.spawnPiece.level = g.level := by
  unfold Game.spawnPiece Game.genNext
  cases g.next <;> dsimp <;> split <;> rfl

theorem score_prepareNext (g : Game) : g.prepareNext.score = g.score := rfl

theorem score_updateScore (g : Game) (c : Nat) :
    (g.updateScore c).score = g.score + scoreMultiplier c * g.level := by
  unfold Game.updateScore
  by_cases h : c = 0
  · subst h; simp [scoreMultiplier]
  · simp only [h, if_false]; split <;> rfl

theorem score_lockAndSpawn (g : Game) :
    g.lockAndSpawnLocked.score =
      g.score +
        scoreMultiplier ((g.board.LockPiece g.current).1.ClearLines).2 *
          g.level := by
  unfold Game.lockAndSpawnLocked
  rw [score_prepareNext, score_spawnPiece, score_updateScore]

/-- **C1 (counterexample).** On an empty board at level 3 a freshly
spawned I-piece (rotation 0, `y = 0`) hard-drops 19 rows — not 18 — and
the drop bonus is `19 × 3 = 57`, not 54: the 1-row-tall shape descends
from `y = 0` to `y = 19` on a 20-row board. -/
theorem hardDrop_I_not_18 :
    gameI3.HardDrop.2 = 19 ∧ gameI3.HardDrop.2 ≠ 18 ∧
    gameI3.HardDrop.1.score = 57 ∧ gameI3.HardDrop.1.score ≠ 54 := by
  decide

/-- **C1 (amended).** On an empty board at level 3, hard-dropping a
freshly spawned I-piece from `y = 0` makes it fall 19 rows and adds a
drop bonus of `19 × 3 = 57` (0 lines cleared contributing 0); in
general, `Game.HardDrop` returns exactly the distance computed by
`Piece.HardDrop` and the resulting score is the old score plus
`distance × level` plus the line-clear points. -/
theorem hardDrop_bonus :
    gameI3.HardDrop.2 = 19 ∧
    gameI3.HardDrop.1.score = 57 ∧
    ((gameI3.board.LockPiece
        (gameI3.current.HardDrop
          fun x y s => gameI3.board.CheckCollision x y s).1).1.ClearLines).2
      = 0 ∧
    ∀ g : Game, g.state = .Playing →
      g.HardDrop.2 =
        (g.current.HardDrop fun x y s => g.board.CheckCollision x y s).2 ∧
      g.HardDrop.1.score =
        g.score + g.HardDrop.2 * g.level +
          scoreMultiplier
            ((g.board.LockPiece
              (g.current.HardDrop
                fun x y s => g.board.CheckCollision x y s).1).1.ClearLines).2
            * g.level := by
  refine ⟨by decide, by decide, by decide, ?_⟩
  intro g h
  unfold Game.HardDrop
  simp only [h, ne_eq, not_true_eq_false, if_false]
  refine ⟨trivial, ?_⟩
  rw [score_lockAndSpawn]

/-- Witness for C1: the general statement applied to the concrete
level-3 game. -/
theorem hardDrop_bonus_w :
    gameI3.state = .Playing ∧
    gameI3.HardDrop.2 =
      (gameI3.current.HardDrop
        fun x y s => gameI3.board.CheckCollision x y s).2 :=
  ⟨rfl, (hardDrop_bonus.2.2.2 gameI3 rfl).1⟩

/-! ## Level/interval bookkeeping invariant (C4) -/

theorem lines_spawnPiece (g : Game) : g.spawnPiece.lines = g.lines := by
  unfold Game.spawnPiece Game.genNext
  cases g.next <;> dsimp <;> split <;> rfl

theorem dropInterval_spawnPiece (g : Game) :
    g.spawnPiece.dropInterval = g.dropInterval := by
  unfold Game.spawnPiece Game.genNext
  cases g.next <;> dsimp <;> split <;> rfl

theorem levelInv_spawnPiece (g : Game) (h : g.LevelInv) :
    g.spawnPiece.LevelInv := by
  unfold Game.LevelInv at h ⊢
  rw [level_spawnPiece, lines_spawnPiece, dropInterval_spawnPiece]
  exact h

theorem levelInv_prepareNext (g : Game) (h : g.LevelInv) :
    g.prepareNext.LevelInv := h

theorem levelInv_updateScore (g : Game) (c : Nat) (h : g.LevelInv) :
    (g.updateScore c).LevelInv := by
  obtain ⟨h1, h2⟩ := h
  unfold Game.updateScore
  by_cases hc : c = 0
  · simp only [hc, if_true]; exact ⟨h1, h2⟩
  · simp only [hc, if_false]
    split
    · exact ⟨rfl, rfl⟩
    · next hle =>
      refine ⟨?_, h2⟩
      dsimp only at hle ⊢
      omega

theorem levelInv_lockAndSpawn (g : Game) (h : g.LevelInv) :
    g.lockAndSpawnLocked.LevelInv := by
  unfold Game.lockAndSpawnLocked
  exact levelInv_prepareNext _ (levelInv_spawnPiece _ (levelInv_updateScore _ _ h))

theorem levelInv_applyOp (g : Game) (op : Op) (h : g.LevelInv) :
    (g.applyOp op).LevelInv := by
  cases op with
  | moveLeft =>
    show g.MoveLeft.1.LevelInv
    unfold Game.MoveLeft; split
    · exact h
    · exact h
  | moveRight =>
    show g.MoveRight.1.LevelInv
    unfold Game.MoveRight; split
    · exact h
    · exact h
  | moveDown =>
    show g.MoveDown.1.LevelInv
    unfold Game.MoveDown; split
    · exact h
    · dsimp only; split
      · exact h
      · exact levelInv_lockAndSpawn _ h
  | rotateCur =>
    show g.RotateCur.1.LevelInv
    unfold Game.RotateCur; split
    · exact h
    · exact h
  | hardDrop =>
    show g.HardDrop.1.LevelInv
    unfold Game.HardDrop; split
    · exact h
    · exact levelInv_lockAndSpawn _ h
  | update now =>
    show (g.Update now).1.LevelInv
    unfold Game.Update; split
    · exact h
    · split
      · dsimp only; split
        · exact h
        · exact levelInv_lockAndSpawn _ h
      · exact h
  | pause =>
    show g.Pause.LevelInv
    unfold Game.Pause; split
    · exact h
    · exact h
  | resume now =>
    show (g.Resume now).LevelInv
    unfold Game.Resume; split
    · exact h
    · exact h

theorem levelInv_applyOps (g : Game) (ops : List Op) (h : g.LevelInv) :
    (g.applyOps ops).LevelInv := by
  induction ops generalizing g with
  | nil => exact h
  | cons op rest ih => exact ih _ (levelInv_applyOp g op h)

theorem levelInv_new (gen : Nat → PieceType) : (Game.New gen).LevelInv := by
  unfold Game.New
  exact levelInv_prepareNext _ (levelInv_spawnPiece _ ⟨by dsimp only, by rfl⟩)

theorem calculateDropInterval_eq (l : Nat) (h : 1 ≤ l) :
    calculateDropInterval l = max 100 (1000 - (l - 1) * 100) := by
  unfold calculateDropInterval
  dsimp only
  split <;> omega

/-- **C4.** After construction and after every sequence of engine
operations, the level equals `⌊lines/10⌋ + 1` and the drop interval (in
milliseconds) equals `max 100 (1000 − (level − 1) · 100)`; in particular
whenever 10 lines have been cleared the level is 2 and the interval is
900 ms. -/
theorem level_dropInterval_invariant (gen : Nat → PieceType)
    (ops : List Op) :
    ((Game.New gen).applyOps ops).level =
      ((Game.New gen).applyOps ops).lines / 10 + 1 ∧
    ((Game.New gen).applyOps ops).dropInterval =
      max 100 (1000 - (((Game.New gen).applyOps ops).level - 1) * 100) ∧
    (((Game.New gen).applyOps ops).lines = 10 →
      ((Game.New gen).applyOps ops).level = 2 ∧
      ((Game.New gen).applyOps ops).dropInterval = 900) := by
  obtain ⟨h1, h2⟩ := levelInv_applyOps (Game.New gen) ops (levelInv_new gen)
  have hl : 1 ≤ ((Game.New gen).applyOps ops).level := by omega
  rw [calculateDropInterval_eq _ hl] at h2
  refine ⟨h1, h2, fun hten => ?_⟩
  constructor
  · omega
  · rw [h2, h1, hten]; decide

/-- Witness for C4: the invariant instantiated on a fresh game. -/
theorem level_dropInterval_invariant_w :
    ((Game.New genI).applyOps []).level =
      ((Game.New genI).applyOps []).lines / 10 + 1 :=
  (level_dropInterval_invariant genI []).1

/-! ## Active-piece safety invariant (C3) -/

theorem rotate_result (p : Piece) (cc : Int → Int → Shape → Bool) :
    (p.Rotate cc).1 = p ∨
    cc (p.Rotate cc).1.x (p.Rotate cc).1.y (p.Rotate cc).1.GetShape = false := by
  unfold Piece.Rotate
  split
  · exact Or.inl rfl
  · dsimp only
    cases h : cc p.x p.y (rotate (shapes p.type) ((p.rotation + 1) % 4)) with
    | false =>
      simp only [h, Bool.not_false, if_true]
      exact Or.inr h
    | true =>
      simp only [h, Bool.not_true, if_false]
      rw [tryKicks_eq_find]
      cases hf : (getWallKicks p.type ((p.rotation + 1) % 4)).find?
          (fun k => !(cc (p.x + k.1) (p.y + k.2)
            (rotate (shapes p.type) ((p.rotation + 1) % 4)))) with
      | none => exact Or.inl rfl
      | some k =>
        have hp := List.find?_some hf
        simp only [Bool.not_eq_true'] at hp
        exact Or.inr hp

theorem pieceInv_spawnPiece (g : Game) : g.spawnPiece.PieceInv := by
  unfold Game.PieceInv Game.spawnPiece Game.genNext
  cases g.next with
  | none =>
    dsimp only
    split
    · intro hst; exact absurd rfl hst
    · next hcol => intro _; simpa using hcol
  | some n =>
    dsimp only
    split
    · intro hst; exact absurd rfl hst
    · next hcol => intro _; simpa using hcol

theorem pieceInv_prepareNext (g : Game) (h : g.PieceInv) :
    g.prepareNext.PieceInv := h

theorem pieceInv_lockAndSpawn (g : Game) : g.lockAndSpawnLocked.PieceInv :=
  pieceInv_prepareNext _ (pieceInv_spawnPiece _)

theorem pieceInv_applyOp (g : Game) (op : Op) (h : g.PieceInv) :
    (g.applyOp op).PieceInv := by
  cases op with
  | moveLeft =>
    show g.MoveLeft.1.PieceInv
    unfold Game.MoveLeft Piece.MoveLeft
    split
    · exact h
    · dsimp only
      cases hc : g.board.CheckCollision (g.current.x - 1) g.current.y
          g.current.GetShape with
      | false => simp only [hc, Bool.not_false, if_true]; intro _; exact hc
      | true => simp only [hc, Bool.not_true, if_false]; exact h
  | moveRight =>
    show g.MoveRight.1.PieceInv
    unfold Game.MoveRight Piece.MoveRight
    split
    · exact h
    · dsimp only
      cases hc : g.board.CheckCollision (g.current.x + 1) g.current.y
          g.current.GetShape with
      | false => simp only [hc, Bool.not_false, if_true]; intro _; exact hc
      | true => simp only [hc, Bool.not_true, if_false]; exact h
  | moveDown =>
    show g.MoveDown.1.PieceInv
    unfold Game.MoveDown Piece.MoveDown
    split
    · exact h
    · dsimp only
      cases hc : g.board.CheckCollision g.current.x (g.current.y + 1)
          g.current.GetShape with
      | false => simp only [hc, Bool.not_false, if_true]; intro _; exact hc
      | true =>
        simp only [hc, Bool.not_true, if_false]
        exact pieceInv_lockAndSpawn _
  | rotateCur =>
    show g.RotateCur.1.PieceInv
    unfold Game.RotateCur
    split
    · exact h
    · dsimp only
      rcases rotate_result g.current
          (fun x y s => g.board.CheckCollision x y s) with hp | hp
      · rw [hp]; exact h
      · intro _; exact hp
  | hardDrop =>
    show g.HardDrop.1.PieceInv
    unfold Game.HardDrop
    split
    · exact h
    · exact pieceInv_lockAndSpawn _
  | update now =>
    show (g.Update now).1.PieceInv
    unfold Game.Update Piece.MoveDown
    split
    · exact h
    · split
      · dsimp only
        cases hc : g.board.CheckCollision g.current.x (g.current.y + 1)
            g.current.GetShape with
        | false => simp only [hc, Bool.not_false, if_true]; intro _; exact hc
        | true =>
          simp only [hc, Bool.not_true, if_false]
          exact pieceInv_lockAndSpawn _
      · exact h
  | pause =>
    show g.Pause.PieceInv
    unfold Game.Pause
    split
    · intro _; exact h (by simp [*])
    · exact h
  | resume now =>
    show (g.Resume now).PieceInv
    unfold Game.Resume
    split
    · intro _; exact h (by simp [*])
    · exact h

theorem pieceInv_applyOps (g : Game) (ops : List Op) (h : g.PieceInv) :
    (g.applyOps ops).PieceInv := by
  induction ops generalizing g with
  | nil => exact h
  | cons op rest ih => exact ih _ (pieceInv_applyOp g op h)

theorem pieceInv_new (gen : Nat → PieceType) : (Game.New gen).PieceInv := by
  unfold Game.New
  exact pieceInv_prepareNext _ (pieceInv_spawnPiece _)

theorem CheckCollision_eq_false_iff (b : Board) (x y : Int) (s : Shape) :
    b.CheckCollision x y s = false ↔
      ∀ r c : Nat, r < s.height → c < s.width → s.cell r c = 1 →
        isValidPosition (x + (c : Int)) (y + (r : Int)) = true ∧
        b.IsOccupied (x + (c : Int)) (y + (r : Int)) = false := by
  unfold Board.CheckCollision
  rw [List.any_eq_false]
  constructor
  · intro hall r c hr hc hcell
    have h1 := hall r (List.mem_range.mpr hr)
    rw [Bool.not_eq_true, List.any_eq_false] at h1
    have h2 := h1 c (List.mem_range.mpr hc)
    simp only [Bool.not_eq_true, hcell, beq_self_eq_true, Bool.true_and,
      Bool.or_eq_false_iff, Bool.not_eq_false'] at h2
    exact h2
  · intro hall r hrmem
    rw [Bool.not_eq_true, List.any_eq_false]
    intro c hcmem
    by_cases hcell : s.cell r c = 1
    · have h2 := hall r c (List.mem_range.mp hrmem) (List.mem_range.mp hcmem)
        hcell
      simp [hcell, h2.1, h2.2]
    · simp [hcell]

/-- **C3.** For every sequence of engine operations starting from a
fresh game, whenever the state is Playing the current piece does not
collide with the board: every filled cell of its rotated shape at its
position is inside the 10×20 bounds and does not overlap an occupied
board cell. -/
theorem active_piece_safe (gen : Nat → PieceType) (ops : List Op)
    (h : ((Game.New gen).applyOps ops).state = .Playing) :
    ((Game.New gen).applyOps ops).board.CheckCollision
        ((Game.New gen).applyOps ops).current.x
        ((Game.New gen).applyOps ops).current.y
        ((Game.New gen).applyOps ops).current.GetShape = false ∧
    ∀ r c : Nat,
      r < ((Game.New gen).applyOps ops).current.GetShape.height →
      c < ((Game.New gen).applyOps ops).current.GetShape.width →
      ((Game.New gen).applyOps ops).current.GetShape.cell r c = 1 →
      isValidPosition (((Game.New gen).applyOps ops).current.x + (c : Int))
        (((Game.New gen).applyOps ops).current.y + (r : Int)) = true ∧
      ((Game.New gen).applyOps ops).board.IsOccupied
        (((Game.New gen).applyOps ops).current.x + (c : Int))
        (((Game.New gen).applyOps ops).current.y + (r : Int)) = false := by
  have hinv :=
    pieceInv_applyOps (Game.New gen) ops (pieceInv_new gen) (by rw [h]; simp)
  exact ⟨hinv, (CheckCollision_eq_false_iff _ _ _ _).mp hinv⟩

/-- Witness for C3: the invariant on a freshly constructed game. -/
theorem active_piece_safe_w :
    ((Game.New genI).applyOps []).state = .Playing ∧
    ((Game.New genI).applyOps []).board.CheckCollision
      ((Game.New genI).applyOps []).current.x
      ((Game.New genI).applyOps []).current.y
      ((Game.New genI).applyOps []).current.GetShape = false :=
  ⟨by decide, (active_piece_safe genI [] (by decide)).1⟩

/-! ## Line clearing (C5) -/

theorem rowFull_emptyRow : rowFull emptyRow = false := by decide

theorem all_range_getD {α : Type} (l : List α) (p : α → Bool) (d : α) :
    ((List.range l.length).all fun i => p (l.getD i d)) = l.all p := by
  induction l with
  | nil => rfl
  | cons a t ih =>
    rw [List.length_cons, List.range_succ_eq_map, List.all_cons, List.all_map,
      List.all_cons]
    simp only [Function.comp_def, Nat.succ_eq_add_one, List.getD_cons_succ,
      List.getD_cons_zero]
    rw [ih]

theorem IsEmpty_append_row (pre : List (List Cell)) (row : List Cell)
    (bot : List (List Cell)) (x : Nat) (hx : x < 10)
    (hlen : pre.length < 20) :
    Board.IsEmpty (pre ++ row :: bot) (x : Int) (pre.length : Int) =
      (row.getD x emptyCell).empty := by
  unfold Board.IsEmpty Board.cellAt
  rw [if_pos]
  · rw [Int.toNat_natCast, Int.toNat_natCast]
    rw [List.getD_append_right _ _ _ _ (le_refl pre.length),
      Nat.sub_self, List.getD_cons_zero]
  · unfold isValidPosition
    simp only [Bool.and_eq_true, decide_eq_true_eq]
    omega

theorem isLineComplete_append (pre : List (List Cell)) (row : List Cell)
    (bot : List (List Cell)) (n : Nat) (hn : pre.length = n) (hlen : n < 20)
    (hrow : row.length = 10) :
    Board.isLineComplete (pre ++ row :: bot) (n : Int) = rowFull row := by
  subst hn
  unfold Board.isLineComplete rowFull
  rw [← all_range_getD row (fun c => !c.empty) emptyCell, hrow]
  rw [Bool.eq_iff_iff, List.all_eq_true, List.all_eq_true]
  constructor
  · intro hall x hxmem
    have hx := List.mem_range.mp hxmem
    have := hall x hxmem
    rw [IsEmpty_append_row pre row bot x hx hlen] at this
    exact this
  · intro hall x hxmem
    have hx := List.mem_range.mp hxmem
    rw [IsEmpty_append_row pre row bot x hx hlen]
    exact hall x hxmem

theorem removeLine_append (rest : List (List Cell)) (row : List Cell)
    (bot : List (List Cell)) :
    Board.removeLine (rest.reverse ++ row :: bot) (rest.length : Int) =
      (rest ++ [emptyRow]).reverse ++ bot := by
  unfold Board.removeLine
  rw [Int.toNat_natCast]
  rw [List.take_left' (by simp), List.reverse_append]
  have hdrop : List.drop (rest.length + 1) (rest.reverse ++ row :: bot)
      = bot := by
    have : rest.length + 1 = rest.reverse.length + 1 := by simp
    rw [this, List.drop_append]
    rfl
  rw [hdrop]
  simp

theorem clearLinesLoop_spec (fuel : Nat) :
    ∀ (rtop bot : List (List Cell)) (count : Nat),
      rtop.length + bot.length = 20 →
      (∀ row ∈ rtop, row.length = 10) →
      rtop.length + rtop.countP (fun r => rowFull r) < fuel →
      Board.clearLinesLoop (rtop.reverse ++ bot)
          ((rtop.length : Int) - 1) count fuel =
        (List.replicate (rtop.countP (fun r => rowFull r)) emptyRow ++
            ((rtop.filter fun r => !(rowFull r)).reverse ++ bot),
          count + rtop.countP (fun r => rowFull r)) := by
  induction fuel with
  | zero => intro rtop bot count _ _ hfuel; omega
  | succ fuel ih =>
    intro rtop bot count h20 hrows hfuel
    cases rtop with
    | nil =>
      rw [Board.clearLinesLoop, if_pos (by norm_num)]
      simp
    | cons row rest =>
      rw [Board.clearLinesLoop]
      have hy : ((row :: rest).length : Int) - 1 = (rest.length : Int) := by
        push_cast [List.length_cons]; ring
      have hb : (row :: rest).reverse ++ bot = rest.reverse ++ (row :: bot) := by
        simp
      have hrl : rest.length < 20 := by
        simp only [List.length_cons] at h20; omega
      have hrow : row.length = 10 := hrows row (List.mem_cons_self row rest)
      rw [hy, hb, if_neg (by omega)]
      rw [isLineComplete_append rest.reverse row bot rest.length (by simp)
        hrl hrow]
      cases hfull : rowFull row with
      | true =>
        rw [if_pos rfl, removeLine_append]
        rw [show (rest.length : Int) =
          ((rest ++ [emptyRow]).length : Int) - 1 by simp]
        rw [ih (rest ++ [emptyRow]) bot (count + 1)
          (by simp at h20 ⊢; omega)
          (by intro r hr
              rcases List.mem_append.mp hr with h1 | h1
              · exact hrows r (List.mem_cons_of_mem _ h1)
              · rw [List.mem_singleton.mp h1]; rfl)
          (by simp [List.countP_append, List.countP_cons, hfull,
                rowFull_emptyRow] at hfuel ⊢
              omega)]
        simp only [Prod.mk.injEq]
        constructor
        · simp [List.countP_append, List.countP_cons, hfull,
            rowFull_emptyRow, List.filter_append, List.filter_cons,
            List.replicate_succ']
        · simp [List.countP_cons, hfull, List.countP_append,
            rowFull_emptyRow]
          omega
      | false =>
        rw [if_neg (by simp)]
        rw [ih rest (row :: bot) count
          (by simp only [List.length_cons] at h20 ⊢; omega)
          (fun r hr => hrows r (List.mem_cons_of_mem _ hr))
          (by simp [List.countP_cons, hfull] at hfuel
              omega)]
        simp only [Prod.mk.injEq]
        constructor
        · simp [List.countP_cons, hfull, List.filter_cons]
        · simp [List.countP_cons, hfull]

/-- **C5.** For every (well-formed 20×10) board, `ClearLines` removes
exactly the fully-occupied rows — the surviving rows keep their order and
shift down, with one fresh empty row appearing on top per removed row —
returns exactly the number of rows removed, and afterwards no
fully-occupied row exists. -/
theorem ClearLines_spec (b : Board) (hWF : b.WF) :
    b.ClearLines.1 =
      List.replicate b.ClearLines.2 emptyRow ++
        (b.filter fun row => !(rowFull row)) ∧
    b.ClearLines.2 = (b.filter fun row => rowFull row).length ∧
    ∀ row ∈ b.ClearLines.1, rowFull row = false := by
  obtain ⟨h20, hrows⟩ := hWF
  have key := clearLinesLoop_spec 64 b.reverse [] 0
    (by simp [h20])
    (by intro r hr; exact hrows r (List.mem_reverse.mp hr))
    (by have := List.countP_le_length (fun r => rowFull r) (l := b.reverse)
        simp only [List.length_reverse, h20] at this ⊢
        omega)
  rw [List.reverse_reverse, List.append_nil] at key
  have hidx : ((b.reverse.length : Int) - 1) = (19 : Int) := by
    simp [h20]
  rw [hidx] at key
  have hcp : b.reverse.countP (fun r => rowFull r) =
      (b.filter fun row => rowFull row).length := by
    rw [List.countP_eq_length_filter, List.filter_reverse,
      List.length_reverse]
  have hfl : (b.reverse.filter fun r => !(rowFull r)).reverse =
      b.filter fun row => !(rowFull row) := by
    rw [List.filter_reverse, List.reverse_reverse]
  have hCL : b.ClearLines =
      (List.replicate (b.filter fun row => rowFull row).length emptyRow ++
        (b.filter fun row => !(rowFull row)),
       (b.filter fun row => rowFull row).length) := by
    unfold Board.ClearLines
    rw [key, hcp, hfl]
    simp
  refine ⟨?_, ?_, ?_⟩
  · rw [hCL]
  · rw [hCL]
  · rw [hCL]
    intro row hrow
    rcases List.mem_append.mp hrow with h1 | h1
    · rw [(List.mem_replicate.mp h1).2]; exact rowFull_emptyRow
    · have h2 := (List.mem_filter.mp h1).2
      rw [Bool.not_eq_true'] at h2
      exact h2

/-- Witness for C5: a concrete board with two full rows and a holed row;
after clearing, no full row remains. -/
theorem ClearLines_spec_w :
    wBoard.WF ∧ (∀ row ∈ wBoard.ClearLines.1, rowFull row = false) :=
  ⟨by decide, (ClearLines_spec wBoard (by decide)).2.2⟩

/-! ## Locking a piece (C10) -/

theorem isValidPosition_iff (x y : Int) :
    isValidPosition x y = true ↔ 0 ≤ x ∧ x < 10 ∧ 0 ≤ y ∧ y < 20 := by
  unfold isValidPosition
  simp [Bool.and_eq_true, decide_eq_true_eq, and_assoc]

theorem WF_SetCell (b : Board) (u v : Int) (col : String) (hWF : b.WF) :
    (b.SetCell u v col).1.WF := by
  obtain ⟨h20, hrows⟩ := hWF
  unfold Board.SetCell
  split
  · next hval =>
    obtain ⟨hu0, hu10, hv0, hv20⟩ := (isValidPosition_iff u v).mp hval
    refine ⟨by simpa using h20, ?_⟩
    intro row hrow
    rcases List.mem_or_eq_of_mem_set hrow with h1 | h1
    · exact hrows row h1
    · rw [h1, List.length_set]
      have hvl : v.toNat < b.length := by omega
      rw [List.getD_eq_getElem?_getD, List.getElem?_eq_getElem hvl]
      exact hrows _ (List.getElem_mem hvl)
  · exact ⟨h20, hrows⟩

theorem cellAt_SetCell (b : Board) (u v x y : Int) (col : String)
    (hWF : b.WF) (huv : isValidPosition u v = true)
    (hxy : isValidPosition x y = true) :
    (b.SetCell u v col).1.cellAt x y =
      if u == x && v == y then { color := col, empty := false }
      else b.cellAt x y := by
  obtain ⟨h20, hrows⟩ := hWF
  obtain ⟨hu0, hu10, hv0, hv20⟩ := (isValidPosition_iff u v).mp huv
  obtain ⟨hx0, hx10, hy0, hy20⟩ := (isValidPosition_iff x y).mp hxy
  unfold Board.SetCell
  rw [if_pos huv]
  dsimp only
  unfold Board.cellAt
  have hvl : v.toNat < b.length := by omega
  have hrowlen : (b.getD v.toNat []).length = 10 := by
    rw [List.getD_eq_getElem?_getD, List.getElem?_eq_getElem hvl]
    exact hrows _ (List.getElem_mem hvl)
  by_cases hvy : v = y
  · subst hvy
    rw [List.getD_eq_getElem?_getD (b.set _ _), List.getElem?_set_self hvl]
    dsimp only [Option.getD_some]
    by_cases hux : u = x
    · subst hux
      have hul : u.toNat < (b.getD v.toNat []).length := by omega
      rw [List.getD_eq_getElem?_getD, List.getElem?_set_self hul]
      simp
    · have hne : u.toNat ≠ x.toNat := by omega
      rw [List.getD_eq_getElem?_getD, List.getElem?_set_ne hne,
        ← List.getD_eq_getElem?_getD]
      have : (u == x) = false := beq_eq_false_iff_ne.mpr hux
      simp [this, Board.cellAt]
  · have hne : v.toNat ≠ y.toNat := by omega
    rw [List.getD_eq_getElem?_getD (b.set _ _), List.getElem?_set_ne hne,
      ← List.getD_eq_getElem?_getD]
    have : (v == y) = false := beq_eq_false_iff_ne.mpr hvy
    simp [this, Board.cellAt]

theorem lockCells_spec (color : String) (px py : Int) (cells : List (Nat × Nat)) :
    ∀ b : Board, b.WF →
      (∀ rc ∈ cells,
        isValidPosition (px + (rc.2 : Int)) (py + (rc.1 : Int)) = true) →
      (b.lockCells color px py cells).2 = true ∧
      (b.lockCells color px py cells).1.WF ∧
      ∀ x y : Int, isValidPosition x y = true →
        (b.lockCells color px py cells).1.cellAt x y =
          if cells.any (fun rc =>
              (px + (rc.2 : Int) == x) && (py + (rc.1 : Int) == y)) then
            { color := color, empty := false }
          else b.cellAt x y := by
  induction cells with
  | nil =>
    intro b hWF _
    exact ⟨rfl, hWF, fun x y _ => by simp [Board.lockCells]⟩
  | cons rc rest ih =>
    intro b hWF hval
    have hrc := hval rc (List.mem_cons_self rc rest)
    have hrest : ∀ r ∈ rest,
        isValidPosition (px + (r.2 : Int)) (py + (r.1 : Int)) = true :=
      fun r hr => hval r (List.mem_cons_of_mem _ hr)
    have hset2 : (b.SetCell (px + (rc.2 : Int)) (py + (rc.1 : Int)) color).2
        = true := by
      unfold Board.SetCell; rw [if_pos hrc]
    have hWF2 := WF_SetCell b (px + (rc.2 : Int)) (py + (rc.1 : Int)) color hWF
    have hstep : b.lockCells color px py (rc :: rest) =
        (b.SetCell (px + (rc.2 : Int)) (py + (rc.1 : Int)) color).1.lockCells
          color px py rest := by
      rw [Board.lockCells]
      rw [hset2]  -- reduce the inner if on the success flag
      simp
    obtain ⟨ih1, ih2, ih3⟩ :=
      ih (b.SetCell (px + (rc.2 : Int)) (py + (rc.1 : Int)) color).1 hWF2 hrest
    rw [hstep]
    refine ⟨ih1, ih2, ?_⟩
    intro x y hxy
    rw [ih3 x y hxy,
      cellAt_SetCell b _ _ x y color hWF hrc hxy]
    rw [List.any_cons]
    cases hrest_any : rest.any (fun r =>
        (px + (r.2 : Int) == x) && (py + (r.1 : Int) == y)) with
    | true => simp [hrest_any]
    | false =>
      cases hhead : (px + (rc.2 : Int) == x) && (py + (rc.1 : Int) == y) with
      | true => simp [hhead, hrest_any]
      | false => simp [hhead, hrest_any]

/-- **C10.** For every well-formed board and every piece whose rotated
shape lies entirely within the 10×20 bounds, `LockPiece` succeeds (Go:
returns nil), sets every board cell covered by a filled cell of the
shape to the piece's color with the empty flag cleared, and leaves every
other board cell unchanged. -/
theorem LockPiece_spec (b : Board) (p : Piece) (hWF : b.WF)
    (hin : ∀ rc ∈ p.GetShape.cellsList,
      isValidPosition (p.x + (rc.2 : Int)) (p.y + (rc.1 : Int)) = true) :
    (b.LockPiece p).2 = true ∧
    ∀ x y : Int, isValidPosition x y = true →
      (b.LockPiece p).1.cellAt x y =
        if p.coversCell x y then { color := p.color, empty := false }
        else b.cellAt x y := by
  obtain ⟨h1, _, h3⟩ := lockCells_spec p.color p.x p.y p.GetShape.cellsList b
    hWF hin
  exact ⟨h1, h3⟩

/-- Witness for C10: an O-piece locked at the bottom of a fresh board;
the lock succeeds and the covered cell `(3, 18)` is written. -/
theorem LockPiece_spec_w :
    (Board.New.LockPiece pO).2 = true ∧
    (Board.New.LockPiece pO).1.cellAt 3 18 =
      (if pO.coversCell 3 18 then { color := pO.color, empty := false }
       else Board.New.cellAt 3 18) :=
  ⟨(LockPiece_spec Board.New pO (by decide) (by decide)).1,
   (LockPiece_spec Board.New pO (by decide) (by decide)).2 3 18 (by decide)⟩

end Tetris
